import Mathlib

/-!
Verification development for the easy-agent agent orchestration core.

The Go sources are shallowly embedded as executable Lean definitions:
pure helpers become Lean functions over `String`/`List Char`; the agent's
streaming loop becomes a trace-producing interpreter driven by an explicit
environment script (per-iteration LLM outcomes, per-tool confirmation
decisions and tool behaviours); `map[string]any` JSON values are represented
by their canonical serialization text (Go's json.Marshal with sorted keys).
-/

namespace EasyAgent

/-! ## Go string helpers

Models of the Go standard-library string operations used by the validator
(`strings.TrimSpace`, `strings.ToLower`, `strings.Contains`, byte length).
`goToLowerChar` implements ASCII case folding, which covers every character
class that actually occurs in the validator's greeting list and keyword
configuration. -/

/-- Whitespace predicate of Go `unicode.IsSpace` restricted to the code points
relevant here (ASCII whitespace plus NEL and NBSP). -/
def goIsSpace (c : Char) : Bool :=
  c = ' ' || c = '\t' || c = '\n' || c = '\x0b' || c = '\x0c' || c = '\r' ||
  c = '\u0085' || c = ' '

/-- ASCII lower-casing of one character (`strings.ToLower` on the character
sets used by the validator). -/
def goToLowerChar (c : Char) : Char :=
  if 'A' ≤ c ∧ c ≤ 'Z' then Char.ofNat (c.toNat + 32) else c

/-- Model of `strings.ToLower`. -/
def goToLower (s : String) : String :=
  String.mk (s.data.map goToLowerChar)

/-- Model of `strings.TrimSpace`: drop leading and trailing whitespace. -/
def goTrimSpace (s : String) : String :=
  String.mk (((s.data.dropWhile goIsSpace).reverse.dropWhile goIsSpace).reverse)

/-- UTF-8 byte width of one character; Go's `len` on a string counts bytes. -/
def charUtf8Size (c : Char) : Nat :=
  if c.toNat < 0x80 then 1
  else if c.toNat < 0x800 then 2
  else if c.toNat < 0x10000 then 3
  else 4

/-- Go `len(s)` for a string: total UTF-8 byte count. -/
def utf8Len (s : String) : Nat :=
  s.data.foldl (fun n c => n + charUtf8Size c) 0

/-- Character-level infix test on lists, used to model `strings.Contains`.
`containsSub sub s` decides whether `sub` occurs contiguously inside `s`.
As in Go, an empty needle matches every haystack. -/
def containsSub (sub : List Char) : List Char → Bool
  | [] => sub.isEmpty
  | c :: cs => sub.isPrefixOf (c :: cs) || containsSub sub cs

/-- Model of `strings.Contains s sub`. -/
def strContains (s sub : String) : Bool :=
  containsSub sub.data s.data

/-! ## Data model: tool calls and chat messages

From `ollama_client.go` / `knowledge.go`.  A `map[string]interface{}` of
tool-call arguments is represented by its canonical JSON serialization text
(Go's `json.Marshal` emits map keys in sorted order, so this text is a
faithful value representation). -/

/-- `ToolCallFunction` from the source: function name plus the arguments
object, the latter represented by its canonical JSON text. -/
structure ToolCallFunction where
  name : String
  arguments : String
deriving DecidableEq, Repr

/-- `ToolCall`: type tag (normally "function") plus the function part. -/
structure ToolCall where
  type : String
  function : ToolCallFunction
deriving DecidableEq, Repr

/-- Go `json.Marshal` of a `ToolCall` value: struct fields in declaration
order with their json tags (`type`, `function`; inside: `name`,
`arguments`). -/
def serializeToolCall (tc : ToolCall) : String :=
  "\x7b\"type\":\"" ++ tc.type ++ "\",\"function\":\x7b\"name\":\"" ++
    tc.function.name ++ "\",\"arguments\":" ++ tc.function.arguments ++ "\x7d\x7d"

/-- `hashToolCalls` from agent_loop.go: empty list hashes to "", otherwise
the SHA-256 hex digest of the marshalled first call.  The digest function
itself is a parameter `sha256hex`; every property proved below depends only
on it being a function of the serialized text. -/
def hashToolCalls (sha256hex : String → String) (calls : List ToolCall) : String :=
  match calls with
  | [] => ""
  | call :: _ => sha256hex (serializeToolCall call)

/-- `ChatMessage`: one conversation turn (role, content, tool name for
tool-role messages, image payloads, tool calls on assistant messages). -/
structure ChatMessage where
  role : String
  content : String := ""
  name : String := ""
  images : List String := []
  toolCalls : List ToolCall := []
deriving DecidableEq, Repr

/-! ## Validation layer, stage A (`isSimpleGreeting` / `isReasonableToolCall`) -/

/-- The built-in greeting list of `isSimpleGreeting`. -/
def greetings : List String :=
  ["hello", "hi", "hey", "你好", "您好", "你好啊", "在吗"]

/-- `isSimpleGreeting` from the tools module: trim and lower-case the prompt;
prompts longer than 30 bytes are never greetings; otherwise compare against
the built-in list. -/
def isSimpleGreeting (prompt : String) : Bool :=
  let p := goToLower (goTrimSpace prompt)
  if utf8Len p > 30 then false
  else greetings.contains p

/-- The `tool_validation.keywords` configuration map (tool name to required
keyword list), as an association list. -/
abbrev KeywordConfig : Type := List (String × List String)

/-- `Agent.isReasonableToolCall`: reject greetings outright; reject tools
absent from the keyword configuration; otherwise accept exactly when some
configured keyword occurs in the lower-cased prompt. -/
def isReasonableToolCall (keywords : KeywordConfig) (originalPrompt : String)
    (toolCall : ToolCall) : Bool :=
  if isSimpleGreeting originalPrompt then false
  else
    let prompt := goToLower originalPrompt
    let toolName := toolCall.function.name
    match List.lookup toolName (keywords : List (String × List String)) with
    | none => false
    | some requiredKeywords => requiredKeywords.any (fun kw => strContains prompt kw)

/-! ## Tool registry (`ToolRegistry`, `registerDefaultTools`)

A registered tool capability is its name, description, parameter schema
(canonical JSON text of the `Schema()` map; Go's `json.Marshal` sorts map
keys) and sensitivity flag.  `ToolRegistry` is a Go map from name to tool;
`registerDefaultTools` inserts the eight default tools, so the registry is
that set of tools and a lookup is an association-list lookup by name.
Go map iteration order is unspecified, so `GetMetadata` is modelled as a
function of the iteration order actually taken by the runtime, which may be
any permutation of the registered tools. -/

/-- A registered tool capability. -/
structure ToolSpec where
  name : String
  description : String
  schema : String
  isSensitive : Bool
deriving DecidableEq, Repr

/-- One entry of the metadata list built by `ToolRegistry.GetMetadata`:
`{type:"function", function:{name, description, parameters}}`. -/
structure ToolMetadataEntry where
  type : String
  name : String
  description : String
  parameters : String
deriving DecidableEq, Repr

/-- `ToolRegistry.GetMetadata`, as a function of the map iteration order the
Go runtime happens to take (any permutation of the registered tools). -/
def GetMetadata (iterationOrder : List ToolSpec) : List ToolMetadataEntry :=
  iterationOrder.map (fun t =>
    { type := "function", name := t.name, description := t.description,
      parameters := t.schema })

/-- `ToolRegistry.Get`: lookup by tool name. -/
def lookupTool (registry : List ToolSpec) (name : String) : Option ToolSpec :=
  registry.find? (fun t => t.name == name)

/-- The sensitivity gate of `handleToolCalls`: a tool triggers the
confirmation flow exactly when it is registered and `IsSensitive()`. -/
def isSensitiveRegistered (registry : List ToolSpec) (name : String) : Bool :=
  match lookupTool registry name with
  | some t => t.isSensitive
  | none => false

/-- `WebSearchTool` (not sensitive). -/
def webSearchTool : ToolSpec where
  name := "web_search"
  description := "When you need to get real-time information, statistics, or search the web, use this tool. For example: CEO names, population statistics, latest news, etc."
  schema := "\x7b\"properties\":\x7b\"fetch_pages\":\x7b\"description\":\"Whether to fetch the full content of result pages.\",\"type\":\"boolean\"\x7d,\"num_results\":\x7b\"description\":\"Number of results to return.\",\"type\":\"integer\"\x7d,\"query\":\x7b\"description\":\"The search query.\",\"type\":\"string\"\x7d\x7d,\"required\":[\"query\"],\"type\":\"object\"\x7d"
  isSensitive := false

/-- `RunCodeTool` (sensitive). -/
def runCodeTool : ToolSpec where
  name := "run_code"
  description := "Executes code in a sandboxed environment. Use this ONLY when the user explicitly asks to run or execute a piece of code."
  schema := "\x7b\"properties\":\x7b\"code\":\x7b\"description\":\"The source code to execute.\",\"type\":\"string\"\x7d,\"language\":\x7b\"description\":\"The programming language (e.g., \x27python\x27, \x27go\x27).\",\"type\":\"string\"\x7d,\"timeout\":\x7b\"description\":\"Execution timeout in seconds.\",\"type\":\"integer\"\x7d\x7d,\"required\":[\"language\",\"code\"],\"type\":\"object\"\x7d"
  isSensitive := true

/-- `ReadFileTool` (not sensitive). -/
def readFileTool : ToolSpec where
  name := "read_file"
  description := "Reads the content of a file. Use this when the user asks to see, open, or read a specific file."
  schema := "\x7b\"properties\":\x7b\"path\":\x7b\"description\":\"The path to the file.\",\"type\":\"string\"\x7d\x7d,\"required\":[\"path\"],\"type\":\"object\"\x7d"
  isSensitive := false

/-- `WriteFileTool` (sensitive). -/
def writeFileTool : ToolSpec where
  name := "write_file"
  description := "Writes content to a file. Use this ONLY when the user explicitly asks to save, write, or create a file."
  schema := "\x7b\"properties\":\x7b\"content\":\x7b\"description\":\"The content to write.\",\"type\":\"string\"\x7d,\"mode\":\x7b\"description\":\"Write mode: \x27overwrite\x27 or \x27append\x27.\",\"type\":\"string\"\x7d,\"path\":\x7b\"description\":\"The path to the file.\",\"type\":\"string\"\x7d\x7d,\"required\":[\"path\",\"content\"],\"type\":\"object\"\x7d"
  isSensitive := true

/-- `GitCmdTool` (not sensitive). -/
def gitCmdTool : ToolSpec where
  name := "git_cmd"
  description := "Executes a git command in the working directory. Only safe, read-only commands are allowed."
  schema := "\x7b\"properties\":\x7b\"cmd\":\x7b\"items\":\x7b\"type\":\"string\"\x7d,\"type\":\"array\"\x7d,\"workdir\":\x7b\"description\":\"The working directory for the git command.\",\"type\":\"string\"\x7d\x7d,\"required\":[\"workdir\",\"cmd\"],\"type\":\"object\"\x7d"
  isSensitive := false

/-- `CreateSessionTool` (not sensitive). -/
def createSessionTool : ToolSpec where
  name := "create_session"
  description := "Creates a new conversation session. Use this ONLY when the user explicitly asks to create or start a new session/topic."
  schema := "\x7b\"properties\":\x7b\"title\":\x7b\"description\":\"The title for the new session.\",\"type\":\"string\"\x7d\x7d,\"required\":[\"title\"],\"type\":\"object\"\x7d"
  isSensitive := false

/-- `SwitchSessionTool` (not sensitive). -/
def switchSessionTool : ToolSpec where
  name := "switch_session"
  description := "Switches to a different conversation session. Use this ONLY when the user explicitly asks to switch, change, or load a different session."
  schema := "\x7b\"properties\":\x7b\"session_id\":\x7b\"description\":\"The ID of the session to switch to.\",\"type\":\"string\"\x7d\x7d,\"required\":[\"session_id\"],\"type\":\"object\"\x7d"
  isSensitive := false

/-- `KnowledgeSearchTool` (not sensitive). -/
def knowledgeSearchTool : ToolSpec where
  name := "knowledge_search"
  description := "Searches the local knowledge base. Use this when the user asks about project documentation, history, or specific domain knowledge."
  schema := "\x7b\"properties\":\x7b\"query\":\x7b\"description\":\"The query to search for in the knowledge base.\",\"type\":\"string\"\x7d,\"top_k\":\x7b\"description\":\"The number of top results to return.\",\"type\":\"integer\"\x7d\x7d,\"required\":[\"query\"],\"type\":\"object\"\x7d"
  isSensitive := false

/-- The registry contents after `registerDefaultTools`, in registration
order. -/
def defaultRegistry : List ToolSpec :=
  [webSearchTool, runCodeTool, readFileTool, writeFileTool, gitCmdTool,
   createSessionTool, switchSessionTool, knowledgeSearchTool]

/-! ## GitCmd (tools module)

The filesystem is abstracted by the oracle `statNotExist`, which reports
whether `os.Stat(workdir)` fails with a not-exist error (any other `Stat`
outcome lets the source proceed).  Reaching the `exec.CommandContext` call
is represented by the `exec` constructor carrying the git argument vector
and working directory; early returns carry the returned error string. -/

/-- `GitCmdArgs`: working directory and git command vector. -/
structure GitCmdArgs where
  workdir : String
  cmd : List String
deriving DecidableEq, Repr

/-- Outcome of `GitCmd` up to the subprocess boundary. -/
inductive GitOutcome
  | errMsg (msg : String)
  | exec (gitArgs : List String) (dir : String)
deriving DecidableEq, Repr

/-- The fixed allow-list of git subcommands. -/
def allowedGitCommands : List String :=
  ["status", "log", "diff", "show", "blame", "rev-parse", "branch", "tag",
   "remote", "config", "ls-files"]

/-- `GitCmd` from the tools module, up to the subprocess invocation. -/
def GitCmd (statNotExist : String → Bool) (args : GitCmdArgs) : GitOutcome :=
  if args.workdir = "" then .errMsg "git error: workdir empty"
  else if statNotExist args.workdir then .errMsg "git error: workdir not exists"
  else
    match args.cmd with
    | [] => .errMsg "git error: cmd empty"
    | c :: _ =>
      if allowedGitCommands.contains c then .exec args.cmd args.workdir
      else .errMsg ("git error: command '" ++ c ++ "' not allowed")

/-! ## Session log loading (`MemoryV3.loadFromDisk`)

A session log line is represented by its `json.Unmarshal` outcome: `none`
for a corrupt line, `some msg` for a line that parses as a `ChatMessage`. -/

/-- One step of the scan loop in `loadFromDisk`: skip corrupt lines; append
a valid message and, when the buffer exceeds the load limit, keep only the
most recent `limit` messages; count every valid line. -/
def loadSessionStep (limit : Nat) (acc : List ChatMessage × Nat)
    (line : Option ChatMessage) : List ChatMessage × Nat :=
  match line with
  | none => acc
  | some msg =>
    let msgs := acc.1 ++ [msg]
    let msgs := if msgs.length > limit then msgs.drop (msgs.length - limit) else msgs
    (msgs, acc.2 + 1)

/-- The scan loop of `loadFromDisk` over one session file: returns the
retained in-memory messages and the total count of valid lines. -/
def loadSessionLines (limit : Nat) (lines : List (Option ChatMessage)) :
    List ChatMessage × Nat :=
  lines.foldl (loadSessionStep limit) ([], 0)

/-- The per-file install step of `loadFromDisk`: the session entry (messages
and `message_count`) is written only when at least one message was retained. -/
def loadSessionFile (limit : Nat) (lines : List (Option ChatMessage)) :
    Option (List ChatMessage × Nat) :=
  let r := loadSessionLines limit lines
  if r.1.isEmpty then none else some r

/-! ## Stream events (event channel protocol)

`StreamEvent` in the source is a tagged record `{type, payload}`; here each
type tag is a constructor.  `tool_start` carries `{tool_name, arguments}`
and `tool_end` carries a `ToolCallEventPayload` with only `ToolName` set.
The single `status` event the agent emits is the terminal
`{"status":"stream_complete"}`. -/

/-- One event on the caller-supplied sink. -/
inductive StreamEvent
  | thinking (text : String)
  | toolStart (toolName : String) (arguments : String)
  | toolEnd (toolName : String)
  | toolOutput (toolName : String) (output : String)
  | token (text : String)
  | error (message : String)
  | awaitingConfirmation (confirmationId : String) (toolName : String)
      (arguments : String)
  | status (status : String)
deriving DecidableEq, Repr

/-- Recognizer for the terminal `status: stream_complete` event. -/
def isStreamComplete (e : StreamEvent) : Bool :=
  match e with
  | .status s => s = "stream_complete"
  | _ => false

/-- Recognizer for `tool_end` events. -/
def isToolEnd (e : StreamEvent) : Bool :=
  match e with
  | .toolEnd _ => true
  | _ => false

/-- Recognizer for `awaiting_confirmation` events. -/
def isAwaiting (e : StreamEvent) : Bool :=
  match e with
  | .awaitingConfirmation _ _ _ => true
  | _ => false

/-! ## Confirmation broker (`ConfirmationManager`) and tool execution

`RegisterRequest` hands back a buffered single-slot `chan bool`;
`ResolveRequest` delivers one value and closes it, and the 5-minute expiry
goroutine closes it without delivery.  A blocking receive therefore sees
either the resolved value or, from a closed channel, the zero value
`false`. -/

/-- The state of a confirmation channel when the executor receives from it. -/
inductive ConfDecision
  | resolved (allowed : Bool)
  | closedTimeout
deriving DecidableEq, Repr

/-- The value produced by `allowed := <-ch`: the delivered boolean, or the
zero value `false` once the expiry goroutine has closed the channel. -/
def recvDecision : ConfDecision → Bool
  | .resolved b => b
  | .closedTimeout => false

/-- The `(result, error)` return of a tool's `Run`: either a result text
with a `nil` error, or a non-`nil` Go error. -/
inductive ToolReturn
  | ok (res : String)
  | err (e : String)
deriving DecidableEq, Repr

/-- Environment behaviour of one tool execution: the complete output lines
the tool's `Run` writes to its sink, and its `(result, error)` return. -/
structure ToolBehavior where
  outputs : List String
  result : ToolReturn
deriving DecidableEq, Repr

/-- `Agent.execTool` (streaming version): unknown tools yield the
hallucination message as the result with a `nil` error; registered tools
yield their `Run` return.  The second component is the Go `error`. -/
def execTool (registry : List ToolSpec) (name : String) (beh : ToolBehavior) :
    String × Option String :=
  match lookupTool registry name with
  | none => ("model hallucinated an unknown tool: " ++ name, none)
  | some _ =>
    match beh.result with
    | .ok res => (res, none)
    | .err e => ("", some e)

/-- Result of one per-tool-call goroutine of `handleToolCalls`: the events
it emits, the result message it manages to push onto the results channel,
whether the tool's `Run` was invoked, and whether the goroutine blocks
forever.  The source never closes `toolPipeWriter`, so once the goroutine
reaches the output-scanner loop the scanner can never see EOF: the events
up to that point (`tool_start` and one `tool_output` per complete line the
tool wrote) are emitted, and `tool_end` is unreachable. -/
structure ToolCallOutcome where
  events : List StreamEvent
  message : Option ChatMessage
  ranTool : Bool
  hung : Bool
deriving DecidableEq, Repr

/-- One per-tool-call goroutine of `handleToolCalls`. -/
def runOneToolCall (registry : List ToolSpec) (tc : ToolCall)
    (confId : String) (conf : ConfDecision) (beh : ToolBehavior) :
    ToolCallOutcome :=
  let name := tc.function.name
  let args := tc.function.arguments
  if isSensitiveRegistered registry name then
    if recvDecision conf then
      { events := [.awaitingConfirmation confId name args, .toolStart name args]
          ++ beh.outputs.map (StreamEvent.toolOutput name),
        message := none, ranTool := true, hung := true }
    else
      { events := [.awaitingConfirmation confId name args,
          .thinking "用户拒绝了工具执行请求。"],
        message := some (
          { role := "tool",
            content := "User denied the execution of this tool.",
            name := name } : ChatMessage),
        ranTool := false, hung := false }
  else
    let known := (lookupTool registry name).isSome
    { events := [.toolStart name args]
        ++ (if known then beh.outputs else []).map (StreamEvent.toolOutput name),
      message := none, ranTool := known, hung := true }

/-- The per-call goroutines of `handleToolCalls`, in tool-call order (one
representative interleaving of the concurrent goroutines; the claims below
do not depend on the interleaving).  Confirmation ids/decisions and tool
behaviours are supplied positionally by the environment. -/
def handleToolCallsAux (registry : List ToolSpec) :
    List ToolCall → List (String × ConfDecision) → List ToolBehavior →
    List ToolCallOutcome
  | [], _, _ => []
  | tc :: tcs, confs, behs =>
    let c := confs.headD ("", ConfDecision.closedTimeout)
    runOneToolCall registry tc c.1 c.2
        (behs.headD { outputs := [], result := ToolReturn.ok "" })
      :: handleToolCallsAux registry tcs confs.tail behs.tail

/-- Aggregate outcome of `handleToolCalls`: all events emitted by the
per-call goroutines, the collected result messages, and whether
`wg.Wait()` blocks forever (it does as soon as any call reached its
scanner loop, since the pipe writer is never closed). -/
structure ToolsOutcome where
  events : List StreamEvent
  results : List ChatMessage
  hung : Bool
deriving DecidableEq, Repr

/-- `Agent.handleToolCalls`. -/
def handleToolCalls (registry : List ToolSpec) (toolCalls : List ToolCall)
    (confs : List (String × ConfDecision)) (behs : List ToolBehavior) :
    ToolsOutcome :=
  let outs := handleToolCallsAux registry toolCalls confs behs
  { events := (outs.map (fun o => o.events)).flatten,
    results := outs.filterMap (fun o => o.message),
    hung := outs.any (fun o => o.hung) }

/-! ## Agent loop (`_runIteration`, `StreamRunWithSessionAndImages`)

The environment of one iteration is an `IterationScript`: the outcome of
the LLM stream as parsed by `processLLMStream` (including its fallback
extraction), the verdict of the stage-B validation LLM call (`true` also on
fail-open), and the confirmation decisions and tool behaviours consumed by
`handleToolCalls`. -/

/-- Parsed outcome of `processLLMStream`: a forwarded error frame, a pipe
read error, or the accumulated `(content, tool calls)`. -/
inductive LLMStreamResult
  | streamError (msg : String)
  | readError
  | output (content : String) (toolCalls : List ToolCall)
deriving DecidableEq, Repr

/-- Environment script for one loop iteration. -/
structure IterationScript where
  llm : LLMStreamResult
  validatorAccepts : Bool
  confs : List (String × ConfDecision)
  behs : List ToolBehavior
deriving DecidableEq, Repr

/-- `Agent.validateToolCall`: the heuristic stage-A check followed by the
model-assisted stage-B verdict (the script's `validatorAccepts`, which is
`true` whenever the source fails open). -/
def validateToolCall (keywords : KeywordConfig) (prompt : String)
    (tc : ToolCall) (validatorAccepts : Bool) : Bool :=
  if isReasonableToolCall keywords prompt tc then validatorAccepts else false

/-- Result of `_runIteration`: emitted events, updated working messages,
updated duplicate-detection hash, whether the loop continues, whether the
iteration blocked forever inside `handleToolCalls`, and the tool calls that
were handed to `handleToolCalls` (`none` when no tool was dispatched). -/
structure IterResult where
  events : List StreamEvent
  messages : List ChatMessage
  newHash : String
  cont : Bool
  hung : Bool
  executed : Option (List ToolCall)
deriving DecidableEq, Repr

/-- `Agent._runIteration`.  `forceTextPrompt` and `dupPrompt` are the
strings returned by rendering the `force_text_response` and
`duplicate_tool_call` templates (the empty string when rendering fails,
since the render error is discarded). -/
def runIteration (sha256hex : String → String) (keywords : KeywordConfig)
    (registry : List ToolSpec) (forceTextPrompt dupPrompt : String)
    (prompt : String) (messages : List ChatMessage) (lastHash : String)
    (scr : IterationScript) : IterResult :=
  match scr.llm with
  | .streamError m =>
    { events := [.thinking "正在思考如何响应...", .error m],
      messages := messages, newHash := lastHash, cont := false, hung := false,
      executed := none }
  | .readError =>
    { events := [.thinking "正在思考如何响应...", .error "Stream read error"],
      messages := messages, newHash := lastHash, cont := false, hung := false,
      executed := none }
  | .output content toolCalls =>
    match toolCalls with
    | [] =>
      { events := [.thinking "正在思考如何响应..."]
          ++ (if content = "" then []
              else [.thinking "正在生成最终答案...", .token content]),
        messages := messages, newHash := lastHash, cont := false,
        hung := false, executed := none }
    | tc0 :: rest =>
      let base := [StreamEvent.thinking "正在思考如何响应...",
        StreamEvent.thinking "检测到工具调用，正在验证并准备执行..."]
      if validateToolCall keywords prompt tc0 scr.validatorAccepts = false then
        { events := base,
          messages := messages
            ++ [{ role := "assistant", toolCalls := tc0 :: rest },
                { role := "user", content := forceTextPrompt }],
          newHash := lastHash, cont := true, hung := false, executed := none }
      else
        let currentHash := hashToolCalls sha256hex (tc0 :: rest)
        if currentHash = lastHash then
          { events := base,
            messages := messages ++ [{ role := "user", content := dupPrompt }],
            newHash := lastHash, cont := true, hung := false, executed := none }
        else
          let outcome := handleToolCalls registry (tc0 :: rest) scr.confs scr.behs
          if outcome.hung then
            { events := base ++ outcome.events,
              messages := messages
                ++ [{ role := "assistant", content := content,
                      toolCalls := tc0 :: rest }],
              newHash := currentHash, cont := false, hung := true,
              executed := some (tc0 :: rest) }
          else
            { events := base ++ outcome.events
                ++ [.thinking "工具执行完毕，正在处理工具结果..."],
              messages := messages
                ++ [{ role := "assistant", content := content,
                      toolCalls := tc0 :: rest }]
                ++ outcome.results,
              newHash := currentHash, cont := true, hung := false,
              executed := some (tc0 :: rest) }

/-- The iteration loop of `StreamRunWithSessionAndImages`: runs up to `fuel`
iterations starting at iteration index `i`, threading messages and the
duplicate hash.  Returns the iteration results in order and whether control
returns from the loop (`false` when an iteration blocked forever). -/
def runLoop (sha256hex : String → String) (keywords : KeywordConfig)
    (registry : List ToolSpec) (forceTextPrompt dupPrompt : String)
    (prompt : String) (scripts : Nat → IterationScript) :
    Nat → Nat → List ChatMessage → String → List IterResult × Bool
  | _, 0, _, _ => ([], true)
  | i, fuel + 1, messages, lastHash =>
    let r := runIteration sha256hex keywords registry forceTextPrompt dupPrompt
      prompt messages lastHash (scripts i)
    if r.hung then ([r], false)
    else if r.cont then
      let rest := runLoop sha256hex keywords registry forceTextPrompt dupPrompt
        prompt scripts (i + 1) fuel r.messages r.newHash
      (r :: rest.1, rest.2)
    else ([r], true)

/-- Observable outcome of one streaming request: the events sent on the
sink in order, the per-iteration results, whether the call returned, and
whether the deferred `close(events)` ran. -/
structure RunResult where
  trace : List StreamEvent
  iterations : List IterResult
  terminated : Bool
  sinkClosed : Bool

/-- `Agent.StreamRunWithSessionAndImages`.  The working messages start from
the session history (a rendered system prompt when the history is empty)
plus the new user message; after the loop the source unconditionally emits
the `error "Iteration limit reached"` event, and its deferred functions
then emit `status: stream_complete` and close the sink.  When an iteration
blocks forever nothing after it is emitted and the sink stays open. -/
def StreamRunWithSessionAndImages (sha256hex : String → String)
    (keywords : KeywordConfig) (registry : List ToolSpec)
    (forceTextPrompt dupPrompt systemPrompt : String)
    (prompt : String) (history : List ChatMessage) (images : List String)
    (maxIterations : Nat) (scripts : Nat → IterationScript) : RunResult :=
  let messages :=
    (if history.isEmpty then [{ role := "system", content := systemPrompt }]
     else history)
    ++ [{ role := "user", content := prompt, images := images }]
  let lr := runLoop sha256hex keywords registry forceTextPrompt dupPrompt
    prompt scripts 0 maxIterations messages ""
  { trace := (lr.1.map (fun r => r.events)).flatten
      ++ (if lr.2 then
            [StreamEvent.error "Iteration limit reached",
             StreamEvent.status "stream_complete"]
          else []),
    iterations := lr.1, terminated := lr.2, sinkClosed := lr.2 }

/-! ## Specification-side predicates and concrete instances

The predicates below restate spec sentences independently of the embedded
source functions, to be compared with them; the concrete tool calls,
keyword configurations and scripts are sample inputs for evaluating the
model. -/

/-- The spec's greeting condition: the prompt, trimmed and lower-cased, is
at most 30 bytes long and exactly matches one of the built-in greetings. -/
def greetingPrompt (prompt : String) : Prop :=
  utf8Len (goToLower (goTrimSpace prompt)) ≤ 30 ∧
    goToLower (goTrimSpace prompt) ∈ greetings

instance (prompt : String) : Decidable (greetingPrompt prompt) := by
  unfold greetingPrompt
  infer_instance

/-- A placeholder tool call (only used as a `headD` default under a
nonemptiness hypothesis). -/
def dummyToolCall : ToolCall :=
  { type := "", function := { name := "", arguments := "" } }

/-- A concrete digest function instantiating the `sha256hex` parameter in
witnesses (the loop properties hold for every such function). -/
def idHash : String → String := fun s => s

/-- A sample `web_search` tool call. -/
def wsCall : ToolCall :=
  { type := "function",
    function :=
      { name := "web_search",
        arguments := "\x7b\"query\":\"population of Tokyo\"\x7d" } }

/-- A sample `write_file` tool call (a sensitive tool). -/
def wfCall : ToolCall :=
  { type := "function",
    function :=
      { name := "write_file",
        arguments := "\x7b\"content\":\"hi\",\"path\":\"hello.txt\"\x7d" } }

/-- A sample call to an unregistered tool name. -/
def unkCall : ToolCall :=
  { type := "function",
    function := { name := "nonexistent", arguments := "\x7b\x7d" } }

/-- A sample keyword configuration. -/
def kwDemo : KeywordConfig :=
  [("web_search", ["search"]), ("write_file", ["file", "write"])]

/-- Script of an iteration whose LLM stream yields a plain-text answer. -/
def textAnswerScript : IterationScript :=
  { llm := .output "Done." [], validatorAccepts := true, confs := [], behs := [] }

/-- Script of an iteration whose LLM stream requests `write_file` and whose
user denies the confirmation. -/
def deniedWriteScript : IterationScript :=
  { llm := .output "" [wfCall], validatorAccepts := true,
    confs := [("cid-deny", .resolved false)],
    behs := [{ outputs := [], result := .ok "" }] }

/-- Script of an iteration that repeats the `web_search` call of the
previous iteration (used with `lastHash` already holding its hash). -/
def dupScript : IterationScript :=
  { llm := .output "" [wsCall], validatorAccepts := true, confs := [], behs := [] }

/-- Script of an iteration whose LLM stream requests `web_search`. -/
def wsCallScript : IterationScript :=
  { llm := .output "" [wsCall], validatorAccepts := true,
    confs := [("cid-ws", .resolved true)],
    behs := [{ outputs := ["result line"], result := .ok "found" }] }

/-- A run whose first LLM stream already yields the final text answer. -/
def answerOnlyRun : RunResult :=
  StreamRunWithSessionAndImages idHash kwDemo defaultRegistry "FT" "DUP"
    "sys" "hello world, please answer" [] [] 6 (fun _ => textAnswerScript)

/-- A run identical to `answerOnlyRun` used to witness the terminal-status
property. -/
def completeRun : RunResult :=
  StreamRunWithSessionAndImages idHash kwDemo defaultRegistry "FT" "DUP"
    "sys" "please answer" [] [] 6 (fun _ => textAnswerScript)

/-- A run whose first iteration has a denied sensitive `write_file` call and
whose second iteration yields the final answer. -/
def deniedThenAnswerRun : RunResult :=
  StreamRunWithSessionAndImages idHash kwDemo defaultRegistry "FT" "DUP"
    "sys" "write hello.txt file" [] [] 6
    (fun i => if i = 0 then deniedWriteScript else textAnswerScript)

/-- Sample session-log parse outcomes: two valid lines around one corrupt
line. -/
def demoLines : List (Option ChatMessage) :=
  [some { role := "user", content := "q" }, none,
   some { role := "assistant", content := "a" }]

/-! # Theorems -/

/-- `List.countP` vanishes on a list of `tool_output` events whenever the
predicate rejects `tool_output` events. -/
theorem countP_map_toolOutput_eq_zero (p : StreamEvent → Bool) (name : String)
    (outs : List String) (h : ∀ o, p (StreamEvent.toolOutput name o) = false) :
    (outs.map (StreamEvent.toolOutput name)).countP p = 0 := by
  induction outs with
  | nil => rfl
  | cons a t ih => simp [List.countP_cons, h, ih]

/-- C10: `GitCmd` reaches the subprocess boundary exactly when the working
directory is a nonempty path that `os.Stat` does not report as missing, the
command vector is nonempty and its first element is on the allow-list; every
other input returns a string of the form `git error: ...` without reaching
the subprocess. -/
theorem gitcmd_subprocess_guard (statNotExist : String → Bool) (args : GitCmdArgs) :
    (∀ gitArgs dir, GitCmd statNotExist args = .exec gitArgs dir →
      args.workdir ≠ "" ∧ statNotExist args.workdir = false ∧ args.cmd ≠ [] ∧
        args.cmd.headD "" ∈ allowedGitCommands ∧
        gitArgs = args.cmd ∧ dir = args.workdir) ∧
    (args.workdir ≠ "" → statNotExist args.workdir = false →
      args.cmd ≠ [] → args.cmd.headD "" ∈ allowedGitCommands →
      GitCmd statNotExist args = .exec args.cmd args.workdir) ∧
    (∀ msg, GitCmd statNotExist args = .errMsg msg →
      ∃ rest, msg = "git error: " ++ rest) := by
  obtain ⟨wd, cmd⟩ := args
  by_cases hwd : wd = ""
  · refine ⟨?_, ?_, ?_⟩
    · intro gitArgs dir h
      rw [GitCmd, if_pos hwd] at h
      exact absurd h (by simp)
    · intro h
      exact absurd hwd h
    · intro msg h
      rw [GitCmd, if_pos hwd] at h
      injection h with h1
      exact ⟨"workdir empty", h1.symm⟩
  · by_cases hst : statNotExist wd
    · refine ⟨?_, ?_, ?_⟩
      · intro gitArgs dir h
        rw [GitCmd, if_neg hwd, if_pos hst] at h
        exact absurd h (by simp)
      · intro _ hst2
        rw [hst] at hst2
        exact absurd hst2 (by simp)
      · intro msg h
        rw [GitCmd, if_neg hwd, if_pos hst] at h
        injection h with h1
        exact ⟨"workdir not exists", h1.symm⟩
    · cases cmd with
      | nil =>
        refine ⟨?_, ?_, ?_⟩
        · intro gitArgs dir h
          rw [GitCmd, if_neg hwd, if_neg hst] at h
          exact absurd h (by simp)
        · intro _ _ hcmd _
          exact absurd rfl hcmd
        · intro msg h
          rw [GitCmd, if_neg hwd, if_neg hst] at h
          injection h with h1
          exact ⟨"cmd empty", h1.symm⟩
      | cons c rest =>
        by_cases hc : allowedGitCommands.contains c
        · refine ⟨?_, ?_, ?_⟩
          · intro gitArgs dir h
            rw [GitCmd, if_neg hwd, if_neg hst] at h
            dsimp only at h
            rw [if_pos hc] at h
            injection h with h1 h2
            exact ⟨hwd, by simpa using hst, by simp,
              by simpa using List.elem_iff.mp hc, h1.symm, h2.symm⟩
          · intro _ _ _ _
            rw [GitCmd, if_neg hwd, if_neg hst]
            dsimp only
            rw [if_pos hc]
          · intro msg h
            rw [GitCmd, if_neg hwd, if_neg hst] at h
            dsimp only at h
            rw [if_pos hc] at h
            exact absurd h (by simp)
        · refine ⟨?_, ?_, ?_⟩
          · intro gitArgs dir h
            rw [GitCmd, if_neg hwd, if_neg hst] at h
            dsimp only at h
            rw [if_neg hc] at h
            exact absurd h (by simp)
          · intro _ _ _ hmem
            exact absurd (List.elem_iff.mpr (by simpa using hmem)) hc
          · intro msg h
            rw [GitCmd, if_neg hwd, if_neg hst] at h
            dsimp only at h
            rw [if_neg hc] at h
            injection h with h1
            refine ⟨"command '" ++ c ++ "' not allowed", ?_⟩
            rw [← h1]
            have hlit : ("git error: command '" : String) =
                "git error: " ++ "command '" := by decide
            simp only [String.append_assoc]
            rw [hlit, String.append_assoc]

/-- Witness for C10 at a concrete input: `git status` in an existing
directory reaches the subprocess with the expected argument vector. -/
theorem gitcmd_subprocess_guard_witness :
    GitCmd (fun _ => false) { workdir := "/repo", cmd := ["status"] } =
      .exec ["status"] "/repo" :=
  (gitcmd_subprocess_guard (fun _ => false)
      { workdir := "/repo", cmd := ["status"] }).2.1
    (by decide) rfl (by decide) (by decide)

/-- C6 counterexample: `GetMetadata` iterates a Go map, whose iteration
order is unspecified; for the registry holding `web_search` and `run_code`,
both orders are legal iterations of the same registered set, yet they
produce different metadata lists, so two calls need not agree. -/
theorem getmetadata_order_counterexample :
    List.Perm [webSearchTool, runCodeTool] [webSearchTool, runCodeTool] ∧
    List.Perm [runCodeTool, webSearchTool] [webSearchTool, runCodeTool] ∧
    GetMetadata [webSearchTool, runCodeTool] ≠
      GetMetadata [runCodeTool, webSearchTool] :=
  ⟨List.Perm.refl _, List.Perm.swap _ _ _, by decide⟩

/-- C6 amended: any two Go-legal iteration orders of the same registry give
metadata lists that are permutations of each other, with one record per
registered tool — equal as multisets, but not necessarily in equal order. -/
theorem getmetadata_full_list (reg order1 order2 : List ToolSpec)
    (h1 : order1.Perm reg) (h2 : order2.Perm reg) :
    (GetMetadata order1).Perm (GetMetadata order2) ∧
    (GetMetadata order1).length = reg.length := by
  constructor
  · exact (h1.trans h2.symm).map _
  · simpa [GetMetadata] using h1.length_eq

/-- Witness for the amended C6 at concrete iteration orders. -/
theorem getmetadata_full_list_witness :
    (GetMetadata [webSearchTool, runCodeTool]).Perm
      (GetMetadata [runCodeTool, webSearchTool]) ∧
    (GetMetadata [webSearchTool, runCodeTool]).length =
      ([webSearchTool, runCodeTool] : List ToolSpec).length :=
  getmetadata_full_list [webSearchTool, runCodeTool] _ _
    (List.Perm.refl _) (List.Perm.swap _ _ _)

/-- C4: when a registered sensitive tool's confirmation channel yields
`false` — or yields the zero value because the 5-minute expiry closed it —
the executor emits the denial `thinking` event, pushes the literal
tool-role result "User denied the execution of this tool.", and performs no
further steps: the tool's `Run` is never invoked and no further events are
emitted for that call. -/
theorem sensitive_denial_behavior :
    (∀ (registry : List ToolSpec) (tc : ToolCall) (confId : String)
        (conf : ConfDecision) (beh : ToolBehavior),
      isSensitiveRegistered registry tc.function.name = true →
      recvDecision conf = false →
      runOneToolCall registry tc confId conf beh =
        { events := [.awaitingConfirmation confId tc.function.name
              tc.function.arguments,
            .thinking "用户拒绝了工具执行请求。"],
          message := some
            { role := "tool",
              content := "User denied the execution of this tool.",
              name := tc.function.name, images := [], toolCalls := [] },
          ranTool := false, hung := false }) ∧
    recvDecision ConfDecision.closedTimeout = false := by
  refine ⟨?_, rfl⟩
  intro registry tc confId conf beh hsens hdeny
  unfold runOneToolCall
  simp [hsens, hdeny]

/-- Witness for C4: a closed (timed-out) channel on the sensitive
`write_file` tool is treated as denial. -/
theorem sensitive_denial_behavior_witness :
    runOneToolCall defaultRegistry wfCall "cid-1" ConfDecision.closedTimeout
        { outputs := [], result := .ok "" } =
      { events := [.awaitingConfirmation "cid-1" wfCall.function.name
            wfCall.function.arguments,
          .thinking "用户拒绝了工具执行请求。"],
        message := some
          { role := "tool",
            content := "User denied the execution of this tool.",
            name := wfCall.function.name, images := [], toolCalls := [] },
        ranTool := false, hung := false } :=
  sensitive_denial_behavior.1 defaultRegistry wfCall "cid-1"
    ConfDecision.closedTimeout { outputs := [], result := .ok "" } rfl rfl

/-- C9 counterexample: for a call to an unregistered tool the computed
result string is "model hallucinated an unknown tool: <name>", not
"unknown tool: <name>", and the bracket never completes: `tool_start` is
emitted but no `tool_end` ever follows (the tool output pipe writer is
never closed, so the output scanner blocks forever). -/
theorem unknown_tool_counterexample :
    (execTool defaultRegistry "nonexistent"
        { outputs := [], result := .ok "" }).1 =
      "model hallucinated an unknown tool: nonexistent" ∧
    (execTool defaultRegistry "nonexistent"
        { outputs := [], result := .ok "" }).1 ≠
      "unknown tool: nonexistent" ∧
    (runOneToolCall defaultRegistry unkCall "" (.resolved true)
        { outputs := [], result := .ok "" }).events =
      [.toolStart "nonexistent" "\x7b\x7d"] ∧
    (runOneToolCall defaultRegistry unkCall "" (.resolved true)
        { outputs := [], result := .ok "" }).events.countP isToolEnd = 0 ∧
    (runOneToolCall defaultRegistry unkCall "" (.resolved true)
        { outputs := [], result := .ok "" }).hung = true := by
  refine ⟨rfl, by decide, rfl, rfl, rfl⟩

/-- C9 amended: for an unregistered tool name the executor emits
`tool_start` for the call, computes the tool-role result
"model hallucinated an unknown tool: <name>" with a nil error and without
invoking any tool, and the loop does not proceed: no `tool_end` is emitted
and no result message is delivered, because the per-call output scanner
never terminates. -/
theorem unknown_tool_behavior (registry : List ToolSpec) (tc : ToolCall)
    (confId : String) (conf : ConfDecision) (beh : ToolBehavior)
    (h : lookupTool registry tc.function.name = none) :
    runOneToolCall registry tc confId conf beh =
      { events := [.toolStart tc.function.name tc.function.arguments],
        message := none, ranTool := false, hung := true } ∧
    execTool registry tc.function.name beh =
      ("model hallucinated an unknown tool: " ++ tc.function.name, none) := by
  have hsens : isSensitiveRegistered registry tc.function.name = false := by
    unfold isSensitiveRegistered
    rw [h]
  constructor
  · unfold runOneToolCall
    simp [hsens, h]
  · unfold execTool
    rw [h]

/-- `isSimpleGreeting` agrees with the spec's characterization: the trimmed,
lower-cased prompt is at most 30 bytes and occurs in the greeting list. -/
theorem isSimpleGreeting_iff (prompt : String) :
    isSimpleGreeting prompt = true ↔ greetingPrompt prompt := by
  unfold isSimpleGreeting greetingPrompt
  dsimp only
  split_ifs with h
  · constructor
    · intro hx
      simp at hx
    · rintro ⟨hle, _⟩
      omega
  · have hle : utf8Len (goToLower (goTrimSpace prompt)) ≤ 30 := by omega
    constructor
    · intro hx
      exact ⟨hle, List.elem_iff.mp hx⟩
    · rintro ⟨_, hmem⟩
      exact List.elem_iff.mpr hmem

/-- C7: the stage-A heuristic accepts a tool call exactly when the prompt is
not a short greeting (trimmed, lower-cased, at most 30 bytes, exact match in
the built-in list), the tool name is present in the keyword configuration,
and some configured keyword occurs as a substring of the lower-cased
prompt; every other case is rejected. -/
theorem heuristic_validator_characterization (kw : KeywordConfig)
    (prompt : String) (tc : ToolCall) :
    isReasonableToolCall kw prompt tc = true ↔
      (¬ greetingPrompt prompt ∧
       ∃ kws, List.lookup tc.function.name kw = some kws ∧
         ∃ k ∈ kws, strContains (goToLower prompt) k = true) := by
  unfold isReasonableToolCall
  by_cases hg : isSimpleGreeting prompt = true
  · rw [if_pos hg]
    constructor
    · intro hx
      simp at hx
    · rintro ⟨hng, _⟩
      exact absurd ((isSimpleGreeting_iff prompt).mp hg) hng
  · have hng : ¬ greetingPrompt prompt := fun hgp =>
      hg ((isSimpleGreeting_iff prompt).mpr hgp)
    rw [if_neg hg]
    dsimp only
    cases hlk : List.lookup tc.function.name kw with
    | none =>
      simp only [hlk]
      constructor
      · intro hx
        simp at hx
      · rintro ⟨_, kws, hsome, _⟩
        simp at hsome
    | some kws =>
      simp only [hlk]
      constructor
      · intro hx
        obtain ⟨k, hk, hck⟩ := List.any_eq_true.mp hx
        exact ⟨hng, kws, rfl, k, hk, hck⟩
      · rintro ⟨_, kws2, hsome, k, hk, hck⟩
        obtain rfl : kws = kws2 := by
          injection hsome
        exact List.any_eq_true.mpr ⟨k, hk, hck⟩

/-- Witness for C7: a greeting prompt is rejected, and a prompt carrying a
configured keyword is accepted, both obtained from the characterization. -/
theorem heuristic_validator_characterization_witness :
    isReasonableToolCall kwDemo "hello" wsCall = false ∧
    isReasonableToolCall kwDemo "Search for the population of Tokyo" wsCall
      = true := by
  constructor
  · cases hb : isReasonableToolCall kwDemo "hello" wsCall
    · rfl
    · obtain ⟨hng, _⟩ :=
        (heuristic_validator_characterization kwDemo "hello" wsCall).mp hb
      exact absurd (by decide) hng
  · exact (heuristic_validator_characterization kwDemo
      "Search for the population of Tokyo" wsCall).mpr
      ⟨by decide, ["search"], rfl, "search", by decide, by decide⟩

/-- One `some` step of the session-log scan preserves the
"most recent `limit` valid messages plus true count" shape. -/
theorem loadSessionStep_some (limit : Nat) (v : List ChatMessage)
    (m : ChatMessage) :
    loadSessionStep limit (v.drop (v.length - limit), v.length) (some m) =
      ((v ++ [m]).drop ((v ++ [m]).length - limit), v.length + 1) := by
  unfold loadSessionStep
  dsimp only
  by_cases hcase : v.length < limit
  · have h0 : v.length - limit = 0 := by omega
    have h1 : (v ++ [m]).length - limit = 0 := by
      simp only [List.length_append, List.length_singleton]
      omega
    rw [h0, h1, List.drop_zero, List.drop_zero]
    have hlen : ¬ ((v ++ [m]).length > limit) := by
      simp only [List.length_append, List.length_singleton]
      omega
    rw [if_neg hlen]
  · have hA : (v.drop (v.length - limit)).length = limit := by
      rw [List.length_drop]
      omega
    have hgt : (v.drop (v.length - limit) ++ [m]).length > limit := by
      simp only [List.length_append, List.length_singleton, hA]
      omega
    rw [if_pos hgt]
    have hd1 : (v.drop (v.length - limit) ++ [m]).length -
        limit = 1 := by
      simp only [List.length_append, List.length_singleton, hA]
      omega
    rw [hd1]
    by_cases hlim : limit = 0
    · subst hlim
      rw [Nat.sub_zero, List.drop_length]
      have : (v ++ [m]).length - 0 = v.length + 1 := by
        simp
      rw [this]
      have : (v ++ [m]).drop (v.length + 1) = [] := by
        apply List.drop_eq_nil_of_le
        simp
      rw [this]
      rfl
    · have h1le : 1 ≤ (v.drop (v.length - limit)).length := by
        rw [hA]
        omega
      rw [List.drop_append_of_le_length h1le, List.drop_drop]
      have hle2 : (v ++ [m]).length - limit ≤ v.length := by
        simp only [List.length_append, List.length_singleton]
        omega
      rw [List.drop_append_of_le_length hle2]
      have : (v ++ [m]).length - limit = v.length - limit + 1 := by
        simp only [List.length_append, List.length_singleton]
        omega
      rw [this]

/-- The session-log scan, started from any accumulated state of the
canonical shape, ends in the canonical shape over the appended valid
messages. -/
theorem loadSessionLines_go (limit : Nat) :
    ∀ (lines : List (Option ChatMessage)) (v : List ChatMessage),
      lines.foldl (loadSessionStep limit) (v.drop (v.length - limit), v.length) =
        ((v ++ lines.reduceOption).drop
            ((v ++ lines.reduceOption).length - limit),
          (v ++ lines.reduceOption).length) := by
  intro lines
  induction lines with
  | nil =>
    intro v
    simp
  | cons line t ih =>
    intro v
    cases line with
    | none =>
      have hstep : loadSessionStep limit
          (v.drop (v.length - limit), v.length) none =
          (v.drop (v.length - limit), v.length) := rfl
      simp only [List.foldl_cons, hstep, List.reduceOption_cons_of_none]
      exact ih v
    | some m =>
      simp only [List.foldl_cons, loadSessionStep_some,
        List.reduceOption_cons_of_some]
      have hlen : v.length + 1 = (v ++ [m]).length := by
        simp
      rw [hlen]
      have := ih (v ++ [m])
      rw [this]
      simp

/-- C8: loading a session file skips corrupt lines, keeps the most recent
`limit` validly parsed messages in file order, and records as
`message_count` the number of valid lines only. -/
theorem session_log_load (limit : Nat) (lines : List (Option ChatMessage))
    (hlimit : 0 < limit) (hvalid : lines.reduceOption ≠ []) :
    loadSessionFile limit lines =
      some (lines.reduceOption.drop (lines.reduceOption.length - limit),
        lines.reduceOption.length) := by
  have hmain : loadSessionLines limit lines =
      (lines.reduceOption.drop (lines.reduceOption.length - limit),
        lines.reduceOption.length) := by
    have h := loadSessionLines_go limit lines []
    simpa [loadSessionLines] using h
  unfold loadSessionFile
  rw [hmain]
  dsimp only
  have hpos : 0 < lines.reduceOption.length := List.length_pos.mpr hvalid
  have hne : ¬ ((lines.reduceOption.drop
      (lines.reduceOption.length - limit)).isEmpty = true) := by
    rw [List.isEmpty_iff]
    intro hnil
    have hl := congrArg List.length hnil
    rw [List.length_drop] at hl
    simp at hl
    omega
  rw [if_neg hne]

/-- Witness for C8 on a concrete file: two valid lines around a corrupt one
load as both messages with `message_count = 2` under the default limit. -/
theorem session_log_load_witness :
    loadSessionFile 200 demoLines =
      some ([{ role := "user", content := "q" },
             { role := "assistant", content := "a" }], 2) := by
  have h := session_log_load 200 demoLines (by decide) (by decide)
  rw [h]
  rfl

/-- C1 (code bug evidence): a run whose very first LLM stream returns the
plain-text final answer still emits the `error "Iteration limit reached"`
event after the `token`, because `StreamRunWithSessionAndImages` emits that
event unconditionally after the loop. -/
theorem iteration_limit_error_on_success :
    answerOnlyRun.terminated = true ∧
    answerOnlyRun.trace =
      [.thinking "正在思考如何响应...", .thinking "正在生成最终答案...",
       .token "Done.", .error "Iteration limit reached",
       .status "stream_complete"] :=
  ⟨rfl, rfl⟩

/-- C3 counterexample: a terminating run containing one
`awaiting_confirmation` (the user denies the sensitive `write_file` call)
emits no `tool_end` at all, so the awaited `tool_end` never follows. -/
theorem awaiting_confirmation_no_toolend_counterexample :
    deniedThenAnswerRun.terminated = true ∧
    deniedThenAnswerRun.trace.countP isAwaiting = 1 ∧
    deniedThenAnswerRun.trace.countP isToolEnd = 0 :=
  ⟨rfl, rfl, rfl⟩

/-- C3 amended: after an `awaiting_confirmation` for a registered sensitive
tool no `tool_end` is ever emitted for that call.  On denial the executor
emits exactly the denial `thinking` event and delivers the denial result
with no `tool_start`/`tool_output`; on allowance it emits `tool_start` and
the tool's output lines but then blocks forever (the pipe writer is never
closed), so the bracket never closes. -/
theorem awaiting_confirmation_followups (registry : List ToolSpec)
    (tc : ToolCall) (confId : String) (conf : ConfDecision)
    (beh : ToolBehavior)
    (hsens : isSensitiveRegistered registry tc.function.name = true) :
    (runOneToolCall registry tc confId conf beh).events.countP isToolEnd = 0 ∧
    (recvDecision conf = false →
      runOneToolCall registry tc confId conf beh =
        { events := [.awaitingConfirmation confId tc.function.name
              tc.function.arguments,
            .thinking "用户拒绝了工具执行请求。"],
          message := some
            { role := "tool",
              content := "User denied the execution of this tool.",
              name := tc.function.name, images := [], toolCalls := [] },
          ranTool := false, hung := false }) ∧
    (recvDecision conf = true →
      (runOneToolCall registry tc confId conf beh).events =
        [.awaitingConfirmation confId tc.function.name tc.function.arguments,
         .toolStart tc.function.name tc.function.arguments]
          ++ beh.outputs.map (StreamEvent.toolOutput tc.function.name) ∧
      (runOneToolCall registry tc confId conf beh).hung = true) := by
  unfold runOneToolCall
  by_cases hrc : recvDecision conf = true
  · rw [if_pos hsens, if_pos hrc]
    refine ⟨?_, ?_, fun _ => ⟨rfl, rfl⟩⟩
    · dsimp only
      rw [List.countP_append,
        countP_map_toolOutput_eq_zero isToolEnd _ _ (fun _ => rfl)]
      rfl
    · intro hfalse
      rw [hrc] at hfalse
      simp at hfalse
  · rw [if_pos hsens, if_neg hrc]
    refine ⟨rfl, fun _ => rfl, ?_⟩
    intro htrue
    exact absurd htrue hrc

/-- Witness for the amended C3 at a concrete denied confirmation. -/
theorem awaiting_confirmation_followups_witness :
    (runOneToolCall defaultRegistry wfCall "cid-3" (.resolved false)
        { outputs := [], result := .ok "" }).events.countP isToolEnd = 0 ∧
    runOneToolCall defaultRegistry wfCall "cid-3" (.resolved false)
        { outputs := [], result := .ok "" } =
      { events := [.awaitingConfirmation "cid-3" wfCall.function.name
            wfCall.function.arguments,
          .thinking "用户拒绝了工具执行请求。"],
        message := some
          { role := "tool",
            content := "User denied the execution of this tool.",
            name := wfCall.function.name, images := [], toolCalls := [] },
        ranTool := false, hung := false } := by
  have h := awaiting_confirmation_followups defaultRegistry wfCall "cid-3"
    (.resolved false) { outputs := [], result := .ok "" } rfl
  exact ⟨h.1, h.2.1 rfl⟩

/-- Witness for the amended C9 at a concrete unregistered call. -/
theorem unknown_tool_behavior_witness :
    runOneToolCall defaultRegistry unkCall "cid-2" (.resolved true)
        { outputs := ["x"], result := .ok "" } =
      { events := [.toolStart unkCall.function.name unkCall.function.arguments],
        message := none, ranTool := false, hung := true } ∧
    execTool defaultRegistry unkCall.function.name
        { outputs := ["x"], result := .ok "" } =
      ("model hallucinated an unknown tool: " ++ unkCall.function.name, none) :=
  unknown_tool_behavior defaultRegistry unkCall "cid-2" (.resolved true)
    { outputs := ["x"], result := .ok "" } rfl

/-- No per-tool-call goroutine ever emits a `status` event. -/
theorem runOneToolCall_no_streamComplete (registry : List ToolSpec)
    (tc : ToolCall) (confId : String) (conf : ConfDecision)
    (beh : ToolBehavior) :
    (runOneToolCall registry tc confId conf beh).events.countP
      isStreamComplete = 0 := by
  unfold runOneToolCall
  by_cases hs : isSensitiveRegistered registry tc.function.name = true
  · rw [if_pos hs]
    by_cases hrc : recvDecision conf = true
    · rw [if_pos hrc]
      dsimp only
      rw [List.countP_append,
        countP_map_toolOutput_eq_zero isStreamComplete _ _ (fun _ => rfl)]
      rfl
    · rw [if_neg hrc]
      rfl
  · rw [if_neg hs]
    dsimp only
    rw [List.countP_append,
      countP_map_toolOutput_eq_zero isStreamComplete _ _ (fun _ => rfl)]
    rfl

/-- `handleToolCalls` never emits a `status` event. -/
theorem handleToolCalls_no_streamComplete (registry : List ToolSpec) :
    ∀ (toolCalls : List ToolCall) (confs : List (String × ConfDecision))
      (behs : List ToolBehavior),
      (handleToolCalls registry toolCalls confs behs).events.countP
        isStreamComplete = 0 := by
  have aux : ∀ (toolCalls : List ToolCall)
      (confs : List (String × ConfDecision)) (behs : List ToolBehavior),
      (((handleToolCallsAux registry toolCalls confs behs).map
        (fun o => o.events)).flatten).countP isStreamComplete = 0 := by
    intro toolCalls
    induction toolCalls with
    | nil => intro confs behs; rfl
    | cons tc t ih =>
      intro confs behs
      simp only [handleToolCallsAux, List.map_cons, List.flatten_cons,
        List.countP_append]
      rw [runOneToolCall_no_streamComplete, ih]
  intro toolCalls confs behs
  unfold handleToolCalls
  dsimp only
  exact aux toolCalls confs behs

/-- `_runIteration` never emits a `status` event. -/
theorem runIteration_no_streamComplete (sha256hex : String → String)
    (keywords : KeywordConfig) (registry : List ToolSpec)
    (forceTextPrompt dupPrompt prompt : String)
    (messages : List ChatMessage) (lastHash : String)
    (scr : IterationScript) :
    (runIteration sha256hex keywords registry forceTextPrompt dupPrompt
      prompt messages lastHash scr).events.countP isStreamComplete = 0 := by
  cases hllm : scr.llm with
  | streamError m => simp only [runIteration, hllm]; rfl
  | readError => simp only [runIteration, hllm]; rfl
  | output content toolCalls =>
    cases toolCalls with
    | nil =>
      simp only [runIteration, hllm]
      by_cases hc : content = ""
      · rw [if_pos hc]
        rfl
      · rw [if_neg hc]
        rfl
    | cons tc0 rest =>
      simp only [runIteration, hllm]
      by_cases hv : validateToolCall keywords prompt tc0 scr.validatorAccepts
          = false
      · rw [if_pos hv]
        rfl
      · rw [if_neg hv]
        by_cases hdup : hashToolCalls sha256hex (tc0 :: rest) = lastHash
        · rw [if_pos hdup]
          rfl
        · rw [if_neg hdup]
          by_cases hh : (handleToolCalls registry (tc0 :: rest) scr.confs
              scr.behs).hung = true
          · rw [if_pos hh]
            dsimp only
            rw [List.countP_append, handleToolCalls_no_streamComplete]
            rfl
          · rw [if_neg hh]
            dsimp only
            rw [List.countP_append, List.countP_append,
              handleToolCalls_no_streamComplete]
            rfl

/-- The iteration loop never emits a `status` event. -/
theorem runLoop_no_streamComplete (sha256hex : String → String)
    (keywords : KeywordConfig) (registry : List ToolSpec)
    (forceTextPrompt dupPrompt prompt : String)
    (scripts : Nat → IterationScript) :
    ∀ (fuel i : Nat) (messages : List ChatMessage) (lastHash : String),
      (((runLoop sha256hex keywords registry forceTextPrompt dupPrompt prompt
          scripts i fuel messages lastHash).1).map
        (fun r => r.events)).flatten.countP isStreamComplete = 0 := by
  intro fuel
  induction fuel with
  | zero => intro i messages lastHash; rfl
  | succ f ih =>
    intro i messages lastHash
    simp only [runLoop]
    by_cases hh : (runIteration sha256hex keywords registry forceTextPrompt
        dupPrompt prompt messages lastHash (scripts i)).hung = true
    · rw [if_pos hh]
      simp only [List.map_cons, List.map_nil, List.flatten_cons,
        List.flatten_nil, List.append_nil]
      exact runIteration_no_streamComplete _ _ _ _ _ _ _ _ _
    · rw [if_neg hh]
      by_cases hc : (runIteration sha256hex keywords registry forceTextPrompt
          dupPrompt prompt messages lastHash (scripts i)).cont = true
      · rw [if_pos hc]
        simp only [List.map_cons, List.flatten_cons, List.countP_append]
        rw [runIteration_no_streamComplete, ih]
      · rw [if_neg hc]
        simp only [List.map_cons, List.map_nil, List.flatten_cons,
          List.flatten_nil, List.append_nil]
        exact runIteration_no_streamComplete _ _ _ _ _ _ _ _ _

/-- The last element of a list extended by two elements. -/
theorem getLast?_append_pair {α : Type} (A : List α) (x y : α) :
    (A ++ [x, y]).getLast? = some y := by
  rw [show A ++ [x, y] = (A ++ [x]) ++ [y] by simp]
  exact List.getLast?_concat _

/-- C2: whenever `StreamRunWithSessionAndImages` returns — however the loop
ended — exactly one `status: stream_complete` event has been emitted, it is
the last event on the sink, and the deferred `close(events)` then runs. -/
theorem stream_complete_terminal (sha256hex : String → String)
    (keywords : KeywordConfig) (registry : List ToolSpec)
    (forceTextPrompt dupPrompt systemPrompt prompt : String)
    (history : List ChatMessage) (images : List String)
    (maxIterations : Nat) (scripts : Nat → IterationScript)
    (hterm : (StreamRunWithSessionAndImages sha256hex keywords registry
        forceTextPrompt dupPrompt systemPrompt prompt history images
        maxIterations scripts).terminated = true) :
    (StreamRunWithSessionAndImages sha256hex keywords registry
        forceTextPrompt dupPrompt systemPrompt prompt history images
        maxIterations scripts).trace.countP isStreamComplete = 1 ∧
    (StreamRunWithSessionAndImages sha256hex keywords registry
        forceTextPrompt dupPrompt systemPrompt prompt history images
        maxIterations scripts).trace.getLast? =
      some (.status "stream_complete") ∧
    (StreamRunWithSessionAndImages sha256hex keywords registry
        forceTextPrompt dupPrompt systemPrompt prompt history images
        maxIterations scripts).sinkClosed = true := by
  unfold StreamRunWithSessionAndImages at hterm ⊢
  dsimp only at hterm ⊢
  rw [if_pos hterm]
  refine ⟨?_, ?_, hterm⟩
  · rw [List.countP_append, runLoop_no_streamComplete]
    rfl
  · exact getLast?_append_pair _ _ _

/-- Witness for C2: a terminating run emits exactly one terminal
`status: stream_complete` as its last event and closes the sink. -/
theorem stream_complete_terminal_witness :
    completeRun.terminated = true ∧
    completeRun.trace.countP isStreamComplete = 1 ∧
    completeRun.trace.getLast? = some (.status "stream_complete") ∧
    completeRun.sinkClosed = true := by
  have h := stream_complete_terminal idHash kwDemo defaultRegistry "FT" "DUP"
    "sys" "please answer" [] [] 6 (fun _ => textAnswerScript) rfl
  exact ⟨rfl, h.1, h.2.1, h.2.2⟩

/-- The hash of a nonempty call list is the digest of its first call's
serialization. -/
theorem hashToolCalls_head (sha256hex : String → String)
    (calls : List ToolCall) (h : calls ≠ []) :
    hashToolCalls sha256hex calls =
      sha256hex (serializeToolCall (calls.headD dummyToolCall)) := by
  cases calls with
  | nil => exact absurd rfl h
  | cons c t => rfl

/-- Whenever an iteration dispatches tool calls, the dispatched list is
nonempty, the stored hash is the digest of those calls, and that digest
differs from the hash retained from the previous iteration. -/
theorem runIteration_executed_spec (sha256hex : String → String)
    (keywords : KeywordConfig) (registry : List ToolSpec)
    (forceTextPrompt dupPrompt prompt : String)
    (messages : List ChatMessage) (lastHash : String)
    (scr : IterationScript) :
    (runIteration sha256hex keywords registry forceTextPrompt dupPrompt
        prompt messages lastHash scr).executed = none ∨
    (∃ tcs, (runIteration sha256hex keywords registry forceTextPrompt
          dupPrompt prompt messages lastHash scr).executed = some tcs ∧
      tcs ≠ [] ∧
      (runIteration sha256hex keywords registry forceTextPrompt dupPrompt
          prompt messages lastHash scr).newHash =
        hashToolCalls sha256hex tcs ∧
      hashToolCalls sha256hex tcs ≠ lastHash) := by
  cases hllm : scr.llm with
  | streamError m => left; simp only [runIteration, hllm]
  | readError => left; simp only [runIteration, hllm]
  | output content toolCalls =>
    cases toolCalls with
    | nil => left; simp only [runIteration, hllm]
    | cons tc0 rest =>
      simp only [runIteration, hllm]
      by_cases hv : validateToolCall keywords prompt tc0 scr.validatorAccepts
          = false
      · left
        rw [if_pos hv]
      · rw [if_neg hv]
        by_cases hdup : hashToolCalls sha256hex (tc0 :: rest) = lastHash
        · left
          rw [if_pos hdup]
        · rw [if_neg hdup]
          right
          refine ⟨tc0 :: rest, ?_, by simp, ?_, hdup⟩
          · split <;> rfl
          · split <;> rfl

/-- The head of a nonempty loop result is the first iteration's result. -/
theorem runLoop_head (sha256hex : String → String)
    (keywords : KeywordConfig) (registry : List ToolSpec)
    (forceTextPrompt dupPrompt prompt : String)
    (scripts : Nat → IterationScript) :
    ∀ (fuel i : Nat) (messages : List ChatMessage) (lastHash : String)
      (r : IterResult) (rest : List IterResult),
      (runLoop sha256hex keywords registry forceTextPrompt dupPrompt prompt
          scripts i fuel messages lastHash).1 = r :: rest →
      r = runIteration sha256hex keywords registry forceTextPrompt dupPrompt
        prompt messages lastHash (scripts i) := by
  intro fuel
  cases fuel with
  | zero =>
    intro i messages lastHash r rest heq
    simp [runLoop] at heq
  | succ f =>
    intro i messages lastHash r rest heq
    simp only [runLoop] at heq
    by_cases hh : (runIteration sha256hex keywords registry forceTextPrompt
        dupPrompt prompt messages lastHash (scripts i)).hung = true
    · rw [if_pos hh] at heq
      dsimp only at heq
      exact (List.cons.injEq _ _ _ _ ▸ heq).1.symm
    · rw [if_neg hh] at heq
      by_cases hc : (runIteration sha256hex keywords registry forceTextPrompt
          dupPrompt prompt messages lastHash (scripts i)).cont = true
      · rw [if_pos hc] at heq
        dsimp only at heq
        exact (List.cons.injEq _ _ _ _ ▸ heq).1.symm
      · rw [if_neg hc] at heq
        dsimp only at heq
        exact (List.cons.injEq _ _ _ _ ▸ heq).1.symm

/-- Every element of a loop result is the result of `_runIteration` on some
intermediate state. -/
theorem runLoop_mem (sha256hex : String → String)
    (keywords : KeywordConfig) (registry : List ToolSpec)
    (forceTextPrompt dupPrompt prompt : String)
    (scripts : Nat → IterationScript) :
    ∀ (fuel i : Nat) (messages : List ChatMessage) (lastHash : String)
      (r : IterResult),
      r ∈ (runLoop sha256hex keywords registry forceTextPrompt dupPrompt
          prompt scripts i fuel messages lastHash).1 →
      ∃ m hh idx, r = runIteration sha256hex keywords registry
        forceTextPrompt dupPrompt prompt m hh (scripts idx) := by
  intro fuel
  induction fuel with
  | zero =>
    intro i messages lastHash r hr
    simp [runLoop] at hr
  | succ f ih =>
    intro i messages lastHash r hr
    simp only [runLoop] at hr
    by_cases hh : (runIteration sha256hex keywords registry forceTextPrompt
        dupPrompt prompt messages lastHash (scripts i)).hung = true
    · rw [if_pos hh] at hr
      dsimp only at hr
      rw [List.mem_singleton] at hr
      exact ⟨messages, lastHash, i, hr⟩
    · rw [if_neg hh] at hr
      by_cases hc : (runIteration sha256hex keywords registry forceTextPrompt
          dupPrompt prompt messages lastHash (scripts i)).cont = true
      · rw [if_pos hc] at hr
        dsimp only at hr
        rw [List.mem_cons] at hr
        cases hr with
        | inl h0 => exact ⟨messages, lastHash, i, h0⟩
        | inr h1 => exact ih _ _ _ _ h1
      · rw [if_neg hc] at hr
        dsimp only at hr
        rw [List.mem_singleton] at hr
        exact ⟨messages, lastHash, i, hr⟩

/-- Consecutive loop results are linked: the later one is `_runIteration`
applied to the state left by the earlier one. -/
theorem runLoop_consecutive (sha256hex : String → String)
    (keywords : KeywordConfig) (registry : List ToolSpec)
    (forceTextPrompt dupPrompt prompt : String)
    (scripts : Nat → IterationScript) :
    ∀ (fuel i : Nat) (messages : List ChatMessage) (lastHash : String)
      (j : Nat) (r1 r2 : IterResult),
      ((runLoop sha256hex keywords registry forceTextPrompt dupPrompt prompt
          scripts i fuel messages lastHash).1).get? j = some r1 →
      ((runLoop sha256hex keywords registry forceTextPrompt dupPrompt prompt
          scripts i fuel messages lastHash).1).get? (j + 1) = some r2 →
      r2 = runIteration sha256hex keywords registry forceTextPrompt dupPrompt
        prompt r1.messages r1.newHash (scripts (i + j + 1)) := by
  intro fuel
  induction fuel with
  | zero =>
    intro i messages lastHash j r1 r2 h1 h2
    simp [runLoop] at h1
  | succ f ih =>
    intro i messages lastHash j r1 r2 h1 h2
    simp only [runLoop] at h1 h2
    by_cases hh : (runIteration sha256hex keywords registry forceTextPrompt
        dupPrompt prompt messages lastHash (scripts i)).hung = true
    · rw [if_pos hh] at h1 h2
      dsimp only at h2
      cases j with
      | zero => simp at h2
      | succ k => simp at h2
    · rw [if_neg hh] at h1 h2
      by_cases hc : (runIteration sha256hex keywords registry forceTextPrompt
          dupPrompt prompt messages lastHash (scripts i)).cont = true
      · rw [if_pos hc] at h1 h2
        dsimp only at h1 h2
        cases j with
        | zero =>
          have hr1 : r1 = runIteration sha256hex keywords registry
              forceTextPrompt dupPrompt prompt messages lastHash
              (scripts i) := by
            rw [List.get?_cons_zero] at h1
            exact (Option.some.injEq _ _ ▸ h1).symm
          rw [List.get?_cons_succ] at h2
          cases hrest : (runLoop sha256hex keywords registry forceTextPrompt
              dupPrompt prompt scripts (i + 1) f
              (runIteration sha256hex keywords registry forceTextPrompt
                dupPrompt prompt messages lastHash (scripts i)).messages
              (runIteration sha256hex keywords registry forceTextPrompt
                dupPrompt prompt messages lastHash (scripts i)).newHash).1 with
          | nil =>
            rw [hrest] at h2
            simp at h2
          | cons a tail =>
            rw [hrest] at h2
            rw [List.get?_cons_zero] at h2
            have ha := runLoop_head sha256hex keywords registry
              forceTextPrompt dupPrompt prompt scripts f (i + 1) _ _ a tail
              hrest
            have hr2 : r2 = a := (Option.some.injEq _ _ ▸ h2).symm
            rw [hr2, ha, hr1]
        | succ k =>
          rw [List.get?_cons_succ] at h1 h2
          have := ih (i + 1) _ _ k r1 r2 h1 h2
          have harith : i + 1 + k + 1 = i + (k + 1) + 1 := by omega
          rw [harith] at this
          exact this
      · rw [if_neg hc] at h1 h2
        dsimp only at h2
        cases j with
        | zero => simp at h2
        | succ k => simp at h2

/-- C5: an iteration whose first validated tool call hashes to the value
retained from the previous iteration appends only the synthetic user
message rendered from the `duplicate_tool_call` template and continues,
dispatching no tool; consequently no two consecutive iterations dispatch
tool calls whose first calls have identical serialized JSON. -/
theorem duplicate_tool_call_guard (sha256hex : String → String)
    (keywords : KeywordConfig) (registry : List ToolSpec)
    (forceTextPrompt dupPrompt prompt : String) :
    (∀ (messages : List ChatMessage) (lastHash : String)
        (scr : IterationScript) (content : String) (tc0 : ToolCall)
        (rest : List ToolCall),
      scr.llm = .output content (tc0 :: rest) →
      validateToolCall keywords prompt tc0 scr.validatorAccepts = true →
      hashToolCalls sha256hex (tc0 :: rest) = lastHash →
      runIteration sha256hex keywords registry forceTextPrompt dupPrompt
          prompt messages lastHash scr =
        { events := [.thinking "正在思考如何响应...",
            .thinking "检测到工具调用，正在验证并准备执行..."],
          messages := messages ++ [{ role := "user", content := dupPrompt }],
          newHash := lastHash, cont := true, hung := false,
          executed := none }) ∧
    (∀ (scripts : Nat → IterationScript) (fuel i j : Nat)
        (messages : List ChatMessage) (lastHash : String)
        (r1 r2 : IterResult) (l1 l2 : List ToolCall),
      ((runLoop sha256hex keywords registry forceTextPrompt dupPrompt prompt
          scripts i fuel messages lastHash).1).get? j = some r1 →
      ((runLoop sha256hex keywords registry forceTextPrompt dupPrompt prompt
          scripts i fuel messages lastHash).1).get? (j + 1) = some r2 →
      r1.executed = some l1 → r2.executed = some l2 →
      serializeToolCall (l1.headD dummyToolCall) ≠
        serializeToolCall (l2.headD dummyToolCall)) := by
  constructor
  · intro messages lastHash scr content tc0 rest hllm hval hdup
    simp only [runIteration, hllm]
    rw [if_neg (by rw [hval]; simp), if_pos hdup]
  · intro scripts fuel i j messages lastHash r1 r2 l1 l2 h1 h2 e1 e2 hser
    have hcons := runLoop_consecutive sha256hex keywords registry
      forceTextPrompt dupPrompt prompt scripts fuel i messages lastHash
      j r1 r2 h1 h2
    obtain ⟨m, hh, idx, hr1⟩ := runLoop_mem sha256hex keywords registry
      forceTextPrompt dupPrompt prompt scripts fuel i messages lastHash r1
      (List.get?_mem h1)
    have spec1 := runIteration_executed_spec sha256hex keywords registry
      forceTextPrompt dupPrompt prompt m hh (scripts idx)
    rw [← hr1] at spec1
    have hne1 : l1 ≠ [] ∧ r1.newHash = hashToolCalls sha256hex l1 := by
      cases spec1 with
      | inl h0 => rw [e1] at h0; cases h0
      | inr h0 =>
        obtain ⟨tcs, htcs, hne, hhash, _⟩ := h0
        rw [e1] at htcs
        obtain rfl : l1 = tcs := by injection htcs
        exact ⟨hne, hhash⟩
    have spec2 := runIteration_executed_spec sha256hex keywords registry
      forceTextPrompt dupPrompt prompt r1.messages r1.newHash
      (scripts (i + j + 1))
    rw [← hcons] at spec2
    have hne2 : l2 ≠ [] ∧ hashToolCalls sha256hex l2 ≠ r1.newHash := by
      cases spec2 with
      | inl h0 => rw [e2] at h0; cases h0
      | inr h0 =>
        obtain ⟨tcs, htcs, hne, _, hdiff⟩ := h0
        rw [e2] at htcs
        obtain rfl : l2 = tcs := by injection htcs
        exact ⟨hne, hdiff⟩
    apply hne2.2
    rw [hashToolCalls_head sha256hex l2 hne2.1,
      hashToolCalls_head sha256hex l1 hne1.1, ← hser] at *
    rw [hne1.2]

/-- Witness for C5 at a concrete duplicate iteration: the loop appends only
the synthetic `duplicate_tool_call` user message and dispatches nothing. -/
theorem duplicate_tool_call_guard_witness :
    runIteration idHash kwDemo defaultRegistry "FT" "DUP"
        "Search for the population of Tokyo" []
        (hashToolCalls idHash [wsCall]) dupScript =
      { events := [.thinking "正在思考如何响应...",
          .thinking "检测到工具调用，正在验证并准备执行..."],
        messages := [{ role := "user", content := "DUP" }],
        newHash := hashToolCalls idHash [wsCall], cont := true,
        hung := false, executed := none } :=
  (duplicate_tool_call_guard idHash kwDemo defaultRegistry "FT" "DUP"
      "Search for the population of Tokyo").1
    [] (hashToolCalls idHash [wsCall]) dupScript "" wsCall [] rfl
    (by decide) rfl

end EasyAgent
